import Mathlib

set_option maxHeartbeats 1000000

/- Verification of the collector pipeline in src/collector/collector.go
   (package collector).

   The collector is a three-stage pipeline: a kafka consumer loop
   (kafkaRoutine) and an HTTP handler (HTTPCollector) feed spans into
   SpansProcessingChan; queueRoutine drains that channel, assembles each
   span into a Document and accumulates documents in the shared
   DocumentQueue buffer, flushing full batches onto DocumentQueueChan;
   documentRoutine drains DocumentQueueChan, lazily provisions indices
   through a TTL existence cache and executes one bulk write per batch.

   External collaborators (the trace decoder, span assembly, the elastic
   client, the kafka client, the mapping registry) are modelled as
   parameters; the collector's own control flow is translated statement
   by statement from the source. -/

/-- trace.Document: the persistable representation of a span, with the
fields the collector reads (IndexName, IndexBaseName, TypeName, Payload). -/
structure Document where
  IndexName : String
  IndexBaseName : String
  TypeName : String
  Payload : String
deriving DecidableEq

/-- trace.Span is opaque to the collector except for its AssembleDocument
method; a span is modelled by the result that call returns
(none models a non-nil error from AssembleDocument). -/
structure Span where
  assembled : Option Document
deriving DecidableEq

/-- span.AssembleDocument(): returns the document, or an error (none). -/
def Span.AssembleDocument (s : Span) : Option Document :=
  s.assembled

/-- The mutable accumulator state owned by CollectorService: the shared
DocumentQueue buffer, together with the batches sent on DocumentQueueChan
so far, in send order. -/
structure AccState where
  DocumentQueue : List Document
  flushed : List (List Document)
deriving DecidableEq

/-- One append-or-flush step of assignSpansToQueue (the body between
Mux.Lock and Mux.Unlock): if len(DocumentQueue) < bulk the document is
appended; otherwise the current buffer is copied, sent on
DocumentQueueChan and the buffer reset to empty. Note that in the flush
branch the source does not append doc: it is dropped. -/
def appendOrFlush (bulk : Nat) (st : AccState) (doc : Document) : AccState :=
  if st.DocumentQueue.length < bulk then
    { st with DocumentQueue := st.DocumentQueue ++ [doc] }
  else
    { DocumentQueue := [], flushed := st.flushed ++ [st.DocumentQueue] }

/-- assignSpansToQueue: for each span, assemble a document (skipping the
span with a log on error) and run the append-or-flush step under the lock. -/
def assignSpansToQueue (bulk : Nat) (st : AccState) (spans : List Span) : AccState :=
  spans.foldl
    (fun acc s =>
      match s.AssembleDocument with
      | none => acc
      | some doc => appendOrFlush bulk acc doc)
    st

/-- queueRoutine: starting from the empty buffer, repeatedly receive a
span batch from SpansProcessingChan and run assignSpansToQueue on it; the
ctx.Done branch returns without touching the buffer, so a completed run
over the received batches is a fold. -/
def queueRoutineRun (bulk : Nat) (batches : List (List Span)) : AccState :=
  batches.foldl (assignSpansToQueue bulk) { DocumentQueue := [], flushed := [] }

/-- Observable per-message events of kafkaRoutine's message case. The
assembleDocument and persistBatch constructors are events of the other
two workers and are never emitted by kafkaRoutine. -/
inductive KafkaEvent where
  | warnDecode
  | send (spans : Option (List Span))
  | commit
  | assembleDocument
  | persistBatch
deriving DecidableEq

/-- The traceLog value computed in kafkaRoutine: GetMessageBody(value),
then, if the body is empty, fall back to the raw message value. The
error returned by GetMessageBody is ignored by the source (empty if
block). -/
def kafkaTraceLog (getMessageBody : String → String × Option String)
    (value : String) : String :=
  let r := getMessageBody value
  if r.1 = "" then value else r.1

/-- The message case of kafkaRoutine's select loop, for one received
message: decode traceLog into spans via trace.ToSpans (modelled as
returning the spans pointer and the error); on error, log a warning;
then unconditionally send the spans on SpansProcessingChan and commit
the offset. sendCompletes models whether the blocking channel send
completes: when it does not, the routine is still blocked in the send
and no later statement of this message case has run. -/
def kafkaHandleMessage (getMessageBody : String → String × Option String)
    (toSpans : String → Option (List Span) × Option String)
    (sendCompletes : Bool) (value : String) : List KafkaEvent :=
  let res := toSpans (kafkaTraceLog getMessageBody value)
  let warns : List KafkaEvent :=
    match res.2 with
    | some _ => [KafkaEvent.warnDecode]
    | none => []
  if sendCompletes then
    warns ++ [KafkaEvent.send res.1, KafkaEvent.commit]
  else
    warns

/-- The elastic client capabilities used by documentRoutine, modelled as
deterministic responders: IndexExists name, and CreateIndex name body
returning the Acknowledged flag. An error value is an Except.error. -/
structure ElasticClient where
  IndexExists : String → Except String Bool
  CreateIndex : String → String → Except String Bool

/-- A provisioning call issued against the store. -/
inductive StoreCall where
  | indexExists (index : String)
  | createIndex (index : String)
deriving DecidableEq

/-- elastic.NewBulkIndexRequest().Index(..).Type(..).Doc(..). -/
structure BulkIndexRequest where
  Index : String
  TypeName : String
  Doc : String
deriving DecidableEq

/-- cacheKey := document.IndexName + document.TypeName (no separator). -/
def Document.cacheKey (d : Document) : String :=
  d.IndexName ++ d.TypeName

/-- The bulk index request built for a document. -/
def indexRequestOf (d : Document) : BulkIndexRequest :=
  { Index := d.IndexName, TypeName := d.TypeName, Doc := d.Payload }

/-- The per-document body of bulkSaveDocument's loop: consult the
existence cache (a set of keys, modelling one TTL window of the gocache
instance); on a miss, call IndexExists, and if the index does not exist,
CreateIndex with the mapping registered for IndexBaseName; on a query
error, a create error, or an unacknowledged create, log and continue
(the document is skipped: no cache set, no bulk request added). On
success, set the cache key and add the index request. Returns the new
cache, the bulk request added for this document (if any), and the store
calls issued. -/
def processDoc (client : ElasticClient) (mappings : String → String)
    (cache : List String) (d : Document) :
    List String × Option BulkIndexRequest × List StoreCall :=
  if d.cacheKey ∈ cache then
    (cache, some (indexRequestOf d), [])
  else
    match client.IndexExists d.IndexName with
    | Except.error _ => (cache, none, [StoreCall.indexExists d.IndexName])
    | Except.ok true =>
        (cache ++ [d.cacheKey], some (indexRequestOf d),
          [StoreCall.indexExists d.IndexName])
    | Except.ok false =>
        match client.CreateIndex d.IndexName (mappings d.IndexBaseName) with
        | Except.error _ =>
            (cache, none,
              [StoreCall.indexExists d.IndexName, StoreCall.createIndex d.IndexName])
        | Except.ok false =>
            (cache, none,
              [StoreCall.indexExists d.IndexName, StoreCall.createIndex d.IndexName])
        | Except.ok true =>
            (cache ++ [d.cacheKey], some (indexRequestOf d),
              [StoreCall.indexExists d.IndexName, StoreCall.createIndex d.IndexName])

/-- bulkSaveDocument's loop over a batch: thread the cache through
processDoc for each document in order, recording per document the bulk
request it contributed (if any) and the store calls it issued. -/
def runDocs (client : ElasticClient) (mappings : String → String) :
    List String → List Document →
      List String × List (Document × Option BulkIndexRequest × List StoreCall)
  | cache, [] => (cache, [])
  | cache, d :: rest =>
    let r := processDoc client mappings cache d
    let rr := runDocs client mappings r.1 rest
    (rr.1, (d, r.2.1, r.2.2) :: rr.2)

/-- The index operations accumulated in the bulk request for a batch:
one per document that passed provisioning, in document order. -/
def bulkRequestOps (client : ElasticClient) (mappings : String → String)
    (cache : List String) (docs : List Document) : List BulkIndexRequest :=
  (runDocs client mappings cache docs).2.filterMap (fun p => p.2.1)

/-- The store calls issued on behalf of documents with a given cache key
during a batch run. -/
def callsForKey (k : String)
    (results : List (Document × Option BulkIndexRequest × List StoreCall)) :
    List StoreCall :=
  ((results.filter (fun p => p.1.cacheKey == k)).map (fun p => p.2.2)).flatten

/-- Provisioning for a document succeeds against the store: the index
already exists, or it does not and the create is acknowledged. These
are exactly the branches of processDoc that reach Cache.Set. -/
def provisionOk (client : ElasticClient) (mappings : String → String)
    (d : Document) : Prop :=
  client.IndexExists d.IndexName = Except.ok true ∨
    (client.IndexExists d.IndexName = Except.ok false ∧
      client.CreateIndex d.IndexName (mappings d.IndexBaseName) = Except.ok true)

/-- One item of bulkResponse.Indexed(), with the fields the source reads. -/
structure BulkResponseItem where
  Status : Nat
  Index : String
  Error : String
deriving DecidableEq

/-- The fields logged for a failed bulk item. -/
structure WarnLog where
  status : Nat
  index : String
  error : String
deriving DecidableEq

/-- The warning record emitted for a bulk response item. -/
def warnLogOf (v : BulkResponseItem) : WarnLog :=
  { status := v.Status, index := v.Index, error := v.Error }

/-- The response-inspection loop at the end of bulkSaveDocument: if the
indexed item list is nonempty, walk it and log a warning for every item
whose Status is not 201; nothing else is done with any item. -/
def inspectIndexed (indexed : List BulkResponseItem) : List WarnLog :=
  if 0 < indexed.length then
    indexed.foldl
      (fun logs value =>
        if value.Status != 201 then logs ++ [warnLogOf value] else logs)
      []
  else
    []

/-- Response body written when trace.ToSpans fails in HTTPCollector. -/
def errorTraceMsg : String := "\x7b\"msg\": \"error trace log\"\x7d"

/-- Response body written when the non-blocking send succeeds. -/
def sentMsg : String := "\x7b\"msg\": \"SpansProcessingChan <- spans\"\x7d"

/-- Response body written by the select's default branch (spans dropped). -/
def defaultMsg : String := "\x7b\"msg\": \"default\"\x7d"

/-- HTTPCollector: decode the body into spans; on error, write the error
body and return without enqueueing. Otherwise, a select with a default
branch: if the channel can accept the spans they are sent and the ack
body written, else the spans are dropped and the default body written.
chanReady models whether SpansProcessingChan can accept the send at that
instant. Returns the spans handed to the channel (if any) and the
response body. -/
def HTTPCollector (toSpans : String → Option (List Span) × Option String)
    (chanReady : Bool) (body : String) : Option (List Span) × String :=
  match (toSpans body).2 with
  | some _ => (none, errorTraceMsg)
  | none =>
    if chanReady then ((toSpans body).1, sentMsg)
    else (none, defaultMsg)

/-- The three long-lived loops defined by the collector. -/
inductive WorkerId where
  | kafkaRoutine
  | queueRoutine
  | documentRoutine
deriving DecidableEq

/-- The goroutines Run actually launches in its errgroup:
group.Go(queueRoutine) and group.Go(documentRoutine). kafkaRoutine is
defined in the same file but is not started by Run. -/
def runWorkers : List WorkerId :=
  [WorkerId.queueRoutine, WorkerId.documentRoutine]

/-- errgroup Wait over the launched goroutines' results: the first
non-nil error among them, if any (none models a nil error). -/
def groupWait (results : List (Option String)) : Option String :=
  results.foldl
    (fun acc r =>
      match acc with
      | some e => some e
      | none => r)
    none

/-- The error Run returns to its caller, as a function of what each
worker loop would return: group.Wait over the workers Run started. -/
def RunResult (res : WorkerId → Option String) : Option String :=
  groupWait (runWorkers.map res)

/-- Invariant of the accumulator state: the buffer never exceeds the
bulk threshold and every flushed batch has length exactly the threshold. -/
def AccInv (bulk : Nat) (st : AccState) : Prop :=
  st.DocumentQueue.length ≤ bulk ∧ ∀ b ∈ st.flushed, b.length = bulk

/-- Sample document (index "trace-a", type "spanType"). -/
def exDoc1 : Document :=
  { IndexName := "trace-a", IndexBaseName := "trace",
    TypeName := "spanType", Payload := "p1" }

/-- Second sample document with the same index and type, distinct payload. -/
def exDoc2 : Document :=
  { IndexName := "trace-a", IndexBaseName := "trace",
    TypeName := "spanType", Payload := "p2" }

/-- A span whose assembly yields exDoc1. -/
def wSpan1 : Span := { assembled := some exDoc1 }

/-- A received sequence of three well-formed spans, used as a concrete run. -/
def wBatches : List (List Span) := [[wSpan1, wSpan1, wSpan1]]

/-- A client for which every call succeeds and every index exists. -/
def okClient : ElasticClient :=
  { IndexExists := fun _ => Except.ok true,
    CreateIndex := fun _ _ => Except.ok true }

/-- A client for which every call fails at transport level. -/
def downClient : ElasticClient :=
  { IndexExists := fun _ => Except.error "connection refused",
    CreateIndex := fun _ _ => Except.error "connection refused" }

/-- An empty mapping registry. -/
def emptyMappings : String → String := fun _ => ""

/-- A decoder that always fails. -/
def failToSpans : String → Option (List Span) × Option String :=
  fun _ => (none, some "invalid character")

/-- A decoder that always succeeds with an empty span list. -/
def okToSpans : String → Option (List Span) × Option String :=
  fun _ => (some [], none)

/-- Worker results where only the kafka loop returns an error. -/
def kafkaOnlyFails : WorkerId → Option String :=
  fun w =>
    match w with
    | WorkerId.kafkaRoutine => some "kafka: join consumer group failed"
    | _ => none

/-- Worker results where only the accumulator loop returns an error. -/
def queueFails : WorkerId → Option String :=
  fun w =>
    match w with
    | WorkerId.queueRoutine => some "context canceled"
    | _ => none

/-- A failed bulk response item with HTTP status 200. -/
def wItem200 : BulkResponseItem :=
  { Status := 200, Index := "trace-a", Error := "version conflict" }

/-- A successful bulk response item with HTTP status 201. -/
def wItem201 : BulkResponseItem :=
  { Status := 201, Index := "trace-a", Error := "" }

theorem foldl_preserve {α σ : Type} (P : σ → Prop) (f : σ → α → σ)
    (h : ∀ s a, P s → P (f s a)) :
    ∀ (l : List α) (s : σ), P s → P (l.foldl f s) := by
  intro l
  induction l with
  | nil => intro s hs; exact hs
  | cons a t ih => intro s hs; exact ih (f s a) (h s a hs)

theorem appendOrFlush_inv (bulk : Nat) (st : AccState) (doc : Document)
    (h : AccInv bulk st) : AccInv bulk (appendOrFlush bulk st doc) := by
  obtain ⟨hlen, hfl⟩ := h
  unfold appendOrFlush
  by_cases hc : st.DocumentQueue.length < bulk
  · rw [if_pos hc]
    refine ⟨?_, hfl⟩
    simpa [List.length_append] using hc
  · rw [if_neg hc]
    refine ⟨by simp, ?_⟩
    intro b hb
    rcases List.mem_append.mp hb with h1 | h2
    · exact hfl b h1
    · have hb2 : b = st.DocumentQueue := by simpa using h2
      subst hb2
      exact Nat.le_antisymm hlen (Nat.le_of_not_lt hc)

theorem assignSpansToQueue_inv (bulk : Nat) (st : AccState)
    (spans : List Span) (h : AccInv bulk st) :
    AccInv bulk (assignSpansToQueue bulk st spans) := by
  unfold assignSpansToQueue
  refine foldl_preserve (AccInv bulk) _ ?_ spans st h
  intro s a hs
  cases a.AssembleDocument with
  | none => exact hs
  | some doc => exact appendOrFlush_inv bulk s doc hs

theorem queueRoutineRun_inv (bulk : Nat) (batches : List (List Span)) :
    AccInv bulk (queueRoutineRun bulk batches) := by
  unfold queueRoutineRun
  refine foldl_preserve (AccInv bulk) _ ?_ batches _ ?_
  · intro s a hs
    exact assignSpansToQueue_inv bulk s a hs
  · exact ⟨by simp, by simp⟩

/-- C1 counterexample: with bulk threshold 1, a span batch assembling to
exDoc1 then exDoc2 leaves exDoc2 nowhere: exDoc2 assembles successfully,
yet after the run it is neither in the buffer nor in any flushed batch —
the overflow-triggering document is dropped, not deferred. -/
theorem overflow_doc_lost_cex :
    Span.AssembleDocument { assembled := some exDoc2 } = some exDoc2 ∧
    exDoc2 ∉ (queueRoutineRun 1
      [[{ assembled := some exDoc1 }, { assembled := some exDoc2 }]]).DocumentQueue ∧
    exDoc2 ∉ (queueRoutineRun 1
      [[{ assembled := some exDoc1 }, { assembled := some exDoc2 }]]).flushed.flatten := by
  decide

/-- C1 (amended): a document that triggers the overflow check (buffer
length not below the bulk threshold) causes a flush of the current
buffer, and the document itself is discarded — it is not appended to the
now-empty buffer; documents assembled while the buffer is full are lost
by the append-or-flush logic. -/
theorem overflow_flush_drops_doc (bulk : Nat) (st : AccState) (doc : Document)
    (h : bulk ≤ st.DocumentQueue.length) :
    appendOrFlush bulk st doc =
      { DocumentQueue := [], flushed := st.flushed ++ [st.DocumentQueue] } := by
  unfold appendOrFlush
  rw [if_neg (Nat.not_lt.mpr h)]

/-- Witness for overflow_flush_drops_doc at a concrete full buffer. -/
theorem overflow_flush_drops_doc_witness :
    1 ≤ (AccState.mk [exDoc1] []).DocumentQueue.length ∧
    appendOrFlush 1 (AccState.mk [exDoc1] []) exDoc2 =
      { DocumentQueue := [], flushed := [] ++ [[exDoc1]] } :=
  ⟨by decide, overflow_flush_drops_doc 1 (AccState.mk [exDoc1] []) exDoc2 (by decide)⟩

/-- C2: with a positive configured bulk threshold, every batch the
accumulator flushes onto DocumentQueueChan has length at most the
threshold and is never empty. -/
theorem flushed_batch_bounded_nonempty (bulk : Nat) (hpos : 0 < bulk)
    (batches : List (List Span)) :
    ∀ b ∈ (queueRoutineRun bulk batches).flushed, b.length ≤ bulk ∧ b ≠ [] := by
  intro b hb
  have h := (queueRoutineRun_inv bulk batches).2 b hb
  constructor
  · exact Nat.le_of_eq h
  · intro hnil
    rw [hnil] at h
    simp at h
    omega

/-- Witness for flushed_batch_bounded_nonempty: threshold 2, three spans
received, the flushed batch is [exDoc1, exDoc1]. -/
theorem flushed_batch_bounded_nonempty_witness :
    0 < 2 ∧ ([exDoc1, exDoc1].length ≤ 2 ∧ [exDoc1, exDoc1] ≠ []) :=
  ⟨by decide,
    flushed_batch_bounded_nonempty 2 (by decide) wBatches [exDoc1, exDoc1] (by decide)⟩

/-- C9: with a bulk threshold of at least 1 (in fact for any threshold),
every batch flushed onto DocumentQueueChan has length exactly the
threshold: appends happen only below the threshold, the only flush site
is the overflow branch of assignSpansToQueue, and no other path (timer,
shutdown: the ctx.Done branch just returns) flushes a partial buffer. -/
theorem flushed_batch_exact_threshold (bulk : Nat) (_hpos : 1 ≤ bulk)
    (batches : List (List Span)) :
    ∀ b ∈ (queueRoutineRun bulk batches).flushed, b.length = bulk :=
  fun b hb => (queueRoutineRun_inv bulk batches).2 b hb

/-- Witness for flushed_batch_exact_threshold at threshold 2. -/
theorem flushed_batch_exact_threshold_witness :
    1 ≤ 2 ∧ [exDoc1, exDoc1].length = 2 :=
  ⟨by decide,
    flushed_batch_exact_threshold 2 (by decide) wBatches [exDoc1, exDoc1] (by decide)⟩

/-- C3 counterexample: a message whose decode into spans fails (toSpans
returns a non-nil error) is logged — and is then still sent to the span
channel and its offset committed: the source has no continue after the
decode-error log. -/
theorem decode_failure_still_sent_cex :
    kafkaHandleMessage (fun s => (s, none)) failToSpans true "notjson" =
      [KafkaEvent.warnDecode, KafkaEvent.send none, KafkaEvent.commit] ∧
    KafkaEvent.send none ∈
      kafkaHandleMessage (fun s => (s, none)) failToSpans true "notjson" := by
  decide

/-- C3 (amended): a message whose decode into spans fails is logged and
the loop continues without crashing and without retrying that message;
however the send to the span channel and the offset commit are
unconditional, so the (possibly nil) spans of a message that fails to
decode are still sent to the span channel, followed by the commit. -/
theorem decode_failure_logged_sent_committed
    (gmb : String → String × Option String)
    (ts : String → Option (List Span) × Option String)
    (value : String)
    (hfail : (ts (kafkaTraceLog gmb value)).2.isSome = true) :
    kafkaHandleMessage gmb ts true value =
      [KafkaEvent.warnDecode,
        KafkaEvent.send (ts (kafkaTraceLog gmb value)).1, KafkaEvent.commit] := by
  unfold kafkaHandleMessage
  cases h : (ts (kafkaTraceLog gmb value)).2 with
  | none => rw [h] at hfail; simp at hfail
  | some e => simp [h]

/-- Witness for decode_failure_logged_sent_committed on a concrete
failing decode. -/
theorem decode_failure_logged_sent_committed_witness :
    (failToSpans (kafkaTraceLog (fun s => (s, none)) "oops")).2.isSome = true ∧
    kafkaHandleMessage (fun s => (s, none)) failToSpans true "oops" =
      [KafkaEvent.warnDecode,
        KafkaEvent.send (failToSpans (kafkaTraceLog (fun s => (s, none)) "oops")).1,
        KafkaEvent.commit] :=
  ⟨by decide,
    decode_failure_logged_sent_committed (fun s => (s, none)) failToSpans "oops"
      (by decide)⟩

/-- C5: on the queue-consumer path, for one received message the offset
commit occurs exactly when the channel send of that message's spans
completed; when the send completes, the events are some decode warnings
followed immediately by the send and then the commit, with nothing in
between, and no document-assembly or persistence event ever occurs in
this routine — in particular the commit is never issued before the send. -/
theorem commit_immediately_after_send
    (gmb : String → String × Option String)
    (ts : String → Option (List Span) × Option String)
    (sc : Bool) (value : String) :
    (KafkaEvent.commit ∈ kafkaHandleMessage gmb ts sc value ↔
      KafkaEvent.send (ts (kafkaTraceLog gmb value)).1 ∈
        kafkaHandleMessage gmb ts sc value) ∧
    (sc = true →
      ∃ pre, kafkaHandleMessage gmb ts sc value =
          pre ++ [KafkaEvent.send (ts (kafkaTraceLog gmb value)).1, KafkaEvent.commit] ∧
        ∀ e ∈ pre, e = KafkaEvent.warnDecode) ∧
    (∀ e ∈ kafkaHandleMessage gmb ts sc value,
      e ≠ KafkaEvent.assembleDocument ∧ e ≠ KafkaEvent.persistBatch) := by
  unfold kafkaHandleMessage
  cases sc with
  | false =>
    cases h : (ts (kafkaTraceLog gmb value)).2 with
    | none => simp [h]
    | some e => simp [h]
  | true =>
    cases h : (ts (kafkaTraceLog gmb value)).2 with
    | none =>
      refine ⟨by simp [h], ?_, by simp [h]⟩
      intro _
      exact ⟨[], by simp [h]⟩
    | some er =>
      refine ⟨by simp [h], ?_, by simp [h]⟩
      intro _
      refine ⟨[KafkaEvent.warnDecode], by simp [h], ?_⟩
      intro e he
      simpa using he

/-- Witness for commit_immediately_after_send on a concrete successful
decode with a completing send. -/
theorem commit_immediately_after_send_witness :
    (true = true) ∧
    (∃ pre, kafkaHandleMessage (fun s => (s, none)) okToSpans true "v" =
        pre ++ [KafkaEvent.send (okToSpans (kafkaTraceLog (fun s => (s, none)) "v")).1,
          KafkaEvent.commit] ∧
      ∀ e ∈ pre, e = KafkaEvent.warnDecode) ∧
    kafkaHandleMessage (fun s => (s, none)) okToSpans true "v" =
      [KafkaEvent.send (some []) , KafkaEvent.commit] :=
  ⟨rfl,
    (commit_immediately_after_send (fun s => (s, none)) okToSpans true "v").2.1 rfl,
    by decide⟩

/-- C4 counterexample: kafkaRoutine is not among the workers Run starts,
and a kafka failure does not propagate to Run's caller: with worker
results where only the kafka loop returns an error, Run's result is nil. -/
theorem run_missing_kafka_worker_cex :
    WorkerId.kafkaRoutine ∉ runWorkers ∧ RunResult kafkaOnlyFails = none := by
  decide

/-- C4 (amended): Run starts two long-lived workers as one supervised
errgroup — the Batch Accumulator loop (queueRoutine) and the Bulk
Persister loop (documentRoutine) — and waits for both; the intake
queue-consumer loop (kafkaRoutine) is not started by Run; when a started
worker returns a non-nil error (including a cancellation error), the
error returned by group.Wait propagates to Run's caller. -/
theorem run_two_workers_error_propagates
    (res : WorkerId → Option String)
    (h : res WorkerId.queueRoutine ≠ none ∨ res WorkerId.documentRoutine ≠ none) :
    runWorkers = [WorkerId.queueRoutine, WorkerId.documentRoutine] ∧
    RunResult res ≠ none := by
  refine ⟨rfl, ?_⟩
  unfold RunResult groupWait runWorkers
  simp only [List.map, List.foldl]
  cases hq : res WorkerId.queueRoutine with
  | some e => simp
  | none =>
    cases hd : res WorkerId.documentRoutine with
    | some e => simp
    | none =>
      rcases h with h | h
      · exact absurd hq h
      · exact absurd hd h

/-- Witness for run_two_workers_error_propagates: the accumulator loop
returns a cancellation error and Run's caller sees an error. -/
theorem run_two_workers_error_propagates_witness :
    (queueFails WorkerId.queueRoutine ≠ none ∨
      queueFails WorkerId.documentRoutine ≠ none) ∧
    (runWorkers = [WorkerId.queueRoutine, WorkerId.documentRoutine] ∧
      RunResult queueFails ≠ none) :=
  ⟨Or.inl (by decide),
    run_two_workers_error_propagates queueFails (Or.inl (by decide))⟩

theorem processDoc_hit (client : ElasticClient) (mappings : String → String)
    (cache : List String) (d : Document) (h : d.cacheKey ∈ cache) :
    processDoc client mappings cache d = (cache, some (indexRequestOf d), []) := by
  simp [processDoc, h]

theorem processDoc_cache_mono (client : ElasticClient) (mappings : String → String)
    (cache : List String) (d : Document) (k : String) (hk : k ∈ cache) :
    k ∈ (processDoc client mappings cache d).1 := by
  by_cases hc : d.cacheKey ∈ cache
  · simp [processDoc, hc, hk]
  · cases hie : client.IndexExists d.IndexName with
    | error e => simp [processDoc, hc, hie, hk]
    | ok b =>
      cases b with
      | true => simp [processDoc, hc, hie, hk]
      | false =>
        cases hci : client.CreateIndex d.IndexName (mappings d.IndexBaseName) with
        | error e => simp [processDoc, hc, hie, hci, hk]
        | ok b2 =>
          cases b2 with
          | false => simp [processDoc, hc, hie, hci, hk]
          | true => simp [processDoc, hc, hie, hci, hk]

theorem processDoc_skip_cache (client : ElasticClient) (mappings : String → String)
    (cache : List String) (d : Document)
    (h : (processDoc client mappings cache d).2.1 = none) :
    (processDoc client mappings cache d).1 = cache := by
  by_cases hc : d.cacheKey ∈ cache
  · simp [processDoc, hc] at h
  · cases hie : client.IndexExists d.IndexName with
    | error e => simp [processDoc, hc, hie]
    | ok b =>
      cases b with
      | true => simp [processDoc, hc, hie] at h
      | false =>
        cases hci : client.CreateIndex d.IndexName (mappings d.IndexBaseName) with
        | error e => simp [processDoc, hc, hie, hci]
        | ok b2 =>
          cases b2 with
          | false => simp [processDoc, hc, hie, hci]
          | true => simp [processDoc, hc, hie, hci] at h

theorem processDoc_success_marks (client : ElasticClient) (mappings : String → String)
    (cache : List String) (d : Document) (h : provisionOk client mappings d) :
    d.cacheKey ∈ (processDoc client mappings cache d).1 := by
  by_cases hc : d.cacheKey ∈ cache
  · simp [processDoc, hc]
  · rcases h with hie | ⟨hie, hci⟩
    · simp [processDoc, hc, hie]
    · simp [processDoc, hc, hie, hci]

theorem callsForKey_cons (k : String) (d : Document) (o : Option BulkIndexRequest)
    (cs : List StoreCall) (t : List (Document × Option BulkIndexRequest × List StoreCall)) :
    callsForKey k ((d, o, cs) :: t) =
      if d.cacheKey = k then cs ++ callsForKey k t else callsForKey k t := by
  by_cases h : d.cacheKey = k
  · simp [callsForKey, List.filter_cons, h]
  · simp [callsForKey, List.filter_cons, h]

theorem runDocs_calls_hit (client : ElasticClient) (mappings : String → String)
    (docs : List Document) :
    ∀ (cache : List String) (k : String), k ∈ cache →
      callsForKey k (runDocs client mappings cache docs).2 = [] := by
  induction docs with
  | nil => intro cache k hk; simp [runDocs, callsForKey]
  | cons d rest ih =>
    intro cache k hk
    by_cases hdk : d.cacheKey = k
    · have hd : d.cacheKey ∈ cache := by rw [hdk]; exact hk
      have h1 := processDoc_hit client mappings cache d hd
      simp only [runDocs, h1, callsForKey_cons, hdk, if_pos, List.nil_append]
      exact ih cache k hk
    · simp only [runDocs, callsForKey_cons, hdk, if_neg, not_false_iff]
      exact ih _ k (processDoc_cache_mono client mappings cache d k hk)

theorem runDocs_results_length (client : ElasticClient) (mappings : String → String)
    (docs : List Document) :
    ∀ cache : List String,
      ((runDocs client mappings cache docs).2).length = docs.length := by
  induction docs with
  | nil => intro cache; simp [runDocs]
  | cons d rest ih => intro cache; simp [runDocs, ih]

theorem runDocs_append (client : ElasticClient) (mappings : String → String)
    (xs ys : List Document) :
    ∀ cache : List String,
      runDocs client mappings cache (xs ++ ys) =
        ((runDocs client mappings (runDocs client mappings cache xs).1 ys).1,
          (runDocs client mappings cache xs).2 ++
            (runDocs client mappings (runDocs client mappings cache xs).1 ys).2) := by
  induction xs with
  | nil => intro cache; simp [runDocs]
  | cons d t ih => intro cache; simp [runDocs, ih]

theorem length_filterMap_eq_countP {α β : Type} (f : α → Option β) (l : List α) :
    (l.filterMap f).length = l.countP (fun a => (f a).isSome) := by
  induction l with
  | nil => simp
  | cons a t ih =>
    cases h : f a with
    | none => simp [List.filterMap_cons, h, List.countP_cons, ih]
    | some b => simp [List.filterMap_cons, h, List.countP_cons, ih]

/-- C6 counterexample: two documents with the same cache key within one
TTL window (the store's existence query failing both times) issue two
indexExists calls — a provisioning failure does not populate the cache,
so the second same-key document retries the store. -/
theorem cache_retry_double_exists_cex :
    exDoc1.cacheKey = exDoc2.cacheKey ∧ exDoc1 ≠ exDoc2 ∧
    callsForKey exDoc1.cacheKey
      (runDocs downClient emptyMappings [] [exDoc1, exDoc2]).2 =
      [StoreCall.indexExists "trace-a", StoreCall.indexExists "trace-a"] := by
  decide

/-- C6 (amended): within one TTL window, once a document for a key
succeeds provisioning the key is marked present in the cache, and every
subsequent document with that key produces no store provisioning calls
until expiry; only documents processed while the key is absent (for
example after a provisioning failure, which does not mark the key) issue
store calls, so repeated failures can issue repeated calls. -/
theorem cache_success_marks_no_more_calls
    (client : ElasticClient) (mappings : String → String)
    (cache : List String) (d : Document) (docs : List Document)
    (hsucc : provisionOk client mappings d) :
    d.cacheKey ∈ (processDoc client mappings cache d).1 ∧
    callsForKey d.cacheKey
      (runDocs client mappings (processDoc client mappings cache d).1 docs).2 = [] := by
  have hm := processDoc_success_marks client mappings cache d hsucc
  exact ⟨hm, runDocs_calls_hit client mappings docs _ _ hm⟩

/-- Witness for cache_success_marks_no_more_calls: a healthy store, a
first document provisioned for the key, then two more documents with the
same key issuing no calls. -/
theorem cache_success_marks_no_more_calls_witness :
    provisionOk okClient emptyMappings exDoc1 ∧
    (exDoc1.cacheKey ∈ (processDoc okClient emptyMappings [] exDoc1).1 ∧
      callsForKey exDoc1.cacheKey
        (runDocs okClient emptyMappings
          (processDoc okClient emptyMappings [] exDoc1).1 [exDoc1, exDoc2]).2 = []) :=
  ⟨Or.inl rfl,
    cache_success_marks_no_more_calls okClient emptyMappings [] exDoc1 [exDoc1, exDoc2]
      (Or.inl rfl)⟩

/-- C7: for a batch handed to the bulk persister, the bulk request holds
at most as many index operations as the batch has documents, exactly one
per document that passed provisioning (skipped documents contribute no
operation), and a document skipped by a provisioning failure leaves the
rest of the batch unaffected: removing it from the batch yields the same
bulk request. -/
theorem bulk_ops_bound_skip_excluded
    (client : ElasticClient) (mappings : String → String) (cache : List String)
    (docs pre post : List Document) (d : Document)
    (hskip : (processDoc client mappings
      (runDocs client mappings cache pre).1 d).2.1 = none) :
    (bulkRequestOps client mappings cache docs).length ≤ docs.length ∧
    (bulkRequestOps client mappings cache docs).length =
      (runDocs client mappings cache docs).2.countP (fun p => p.2.1.isSome) ∧
    bulkRequestOps client mappings cache (pre ++ d :: post) =
      bulkRequestOps client mappings cache (pre ++ post) := by
  refine ⟨?_, ?_, ?_⟩
  · rw [bulkRequestOps, length_filterMap_eq_countP]
    exact le_trans (List.countP_le_length _)
      (le_of_eq (runDocs_results_length client mappings docs cache))
  · exact length_filterMap_eq_countP _ _
  · have hc1 := processDoc_skip_cache client mappings
      (runDocs client mappings cache pre).1 d hskip
    simp only [bulkRequestOps, runDocs_append, runDocs, hc1, hskip,
      List.filterMap_append, List.filterMap_cons]

/-- Witness for bulk_ops_bound_skip_excluded: a down store skips every
document; the one-document batch yields an empty bulk request, and
removing the skipped document changes nothing. -/
theorem bulk_ops_bound_skip_excluded_witness :
    (processDoc downClient emptyMappings
      (runDocs downClient emptyMappings [] []).1 exDoc1).2.1 = none ∧
    ((bulkRequestOps downClient emptyMappings [] [exDoc1]).length ≤ [exDoc1].length ∧
      (bulkRequestOps downClient emptyMappings [] [exDoc1]).length =
        (runDocs downClient emptyMappings [] [exDoc1]).2.countP
          (fun p => p.2.1.isSome) ∧
      bulkRequestOps downClient emptyMappings [] ([] ++ exDoc1 :: [exDoc2]) =
        bulkRequestOps downClient emptyMappings [] ([] ++ [exDoc2])) :=
  ⟨by decide,
    bulk_ops_bound_skip_excluded downClient emptyMappings [] [exDoc1] [] [exDoc2]
      exDoc1 (by decide)⟩

/-- C8: for a request whose body decodes successfully, the handler's
send is the non-blocking select: when the span channel cannot accept the
spans (chanReady = false) the spans are dropped and the generic default
acknowledgment body is still returned; when it can, the spans are handed
over and the ack body returned — in both cases the handler returns a
response rather than waiting on downstream state. -/
theorem http_nonblocking_drop
    (toSpans : String → Option (List Span) × Option String)
    (body : String) (spans : Option (List Span))
    (hok : toSpans body = (spans, none)) :
    HTTPCollector toSpans false body = (none, defaultMsg) ∧
    HTTPCollector toSpans true body = (spans, sentMsg) := by
  simp [HTTPCollector, hok]

/-- Witness for http_nonblocking_drop on a concrete successful decode. -/
theorem http_nonblocking_drop_witness :
    okToSpans "body" = (some [], none) ∧
    (HTTPCollector okToSpans false "body" = (none, defaultMsg) ∧
      HTTPCollector okToSpans true "body" = (some [], sentMsg)) :=
  ⟨rfl, http_nonblocking_drop okToSpans "body" (some []) rfl⟩

theorem inspect_foldl_eq (l : List BulkResponseItem) :
    ∀ acc : List WarnLog,
      l.foldl
        (fun logs value =>
          if value.Status != 201 then logs ++ [warnLogOf value] else logs)
        acc =
      acc ++ (l.filter (fun v => v.Status != 201)).map warnLogOf := by
  induction l with
  | nil => intro acc; simp
  | cons v t ih =>
    intro acc
    rw [List.foldl_cons, ih]
    by_cases h : v.Status = 201
    · simp [List.filter_cons, h]
    · simp [List.filter_cons, h]

theorem warnLogOf_inj {a b : BulkResponseItem} (h : warnLogOf a = warnLogOf b) :
    a = b := by
  cases a
  cases b
  simpa [warnLogOf, WarnLog.mk.injEq, BulkResponseItem.mk.injEq] using h

/-- C10: the bulk-response inspection logs exactly the items whose
Status differs from 201 (in order), and an item is logged iff its status
is not 201 — so status 200 is treated as a failure and logged, 201 as
the only success; the loop produces nothing but these log entries. -/
theorem bulk_item_success_iff_201 (indexed : List BulkResponseItem) :
    inspectIndexed indexed =
      (indexed.filter (fun v => v.Status != 201)).map warnLogOf ∧
    ∀ v ∈ indexed, (warnLogOf v ∈ inspectIndexed indexed ↔ v.Status ≠ 201) := by
  have heq : inspectIndexed indexed =
      (indexed.filter (fun v => v.Status != 201)).map warnLogOf := by
    cases indexed with
    | nil => simp [inspectIndexed]
    | cons a t =>
      unfold inspectIndexed
      rw [if_pos (by simp), inspect_foldl_eq]
      simp
  refine ⟨heq, ?_⟩
  intro v hv
  rw [heq]
  constructor
  · intro hmem
    rcases List.mem_map.mp hmem with ⟨u, hu, hlog⟩
    have huv := warnLogOf_inj hlog
    subst huv
    have hp := (List.mem_filter.mp hu).2
    simpa using hp
  · intro hne
    refine List.mem_map.mpr ⟨v, ?_, rfl⟩
    refine List.mem_filter.mpr ⟨hv, ?_⟩
    simpa using hne

/-- Witness for bulk_item_success_iff_201: in a response with a 201 item
and a 200 item, the 200 item is logged as a failure. -/
theorem bulk_item_success_iff_201_witness :
    wItem200 ∈ [wItem201, wItem200] ∧
    (warnLogOf wItem200 ∈ inspectIndexed [wItem201, wItem200] ↔
      wItem200.Status ≠ 201) :=
  ⟨by decide, (bulk_item_success_iff_201 [wItem201, wItem200]).2 wItem200 (by decide)⟩
